import Mathlib

/-!
Verification development for the thumbnail service in
`src/backend/venv/server.py` (Flask endpoint `/thumbnail`).

The program is shallowly embedded: bytes are lists of naturals, the
`uploads` directory is an association list from path to contents, and the
ambient effectful operations (network fetch, image decoding, image
encoding, UTF-8 decoding, the EXIF tag-name table) are an explicit
environment of pure functions.  A Python exception is modelled as
`Except.error` carrying the exception message; an uncaught exception
escaping the handler is the `HandlerResult.raised` outcome.
-/

/-- Python byte strings: each element is one byte (0–255). -/
abbrev Bytes := List Nat

/-- A Python value occurring as an EXIF tag value: string, integer, or a
raw byte string (other PIL value shapes are not distinguished by the
code under verification, which only branches on `bytes`). -/
inductive PyVal where
  | pstr (s : String)
  | pint (n : Int)
  | pbytes (bs : Bytes)
  deriving DecidableEq, Repr

/-- A key of the metadata mapping, `TAGS.get(tag_id, tag_id)`: the
human-readable tag name when the numeric id is in the table, otherwise
the numeric id itself. -/
inductive TagKey where
  | name (s : String)
  | id (n : Nat)
  deriving DecidableEq, Repr

/-- A decoded PIL image: its pixel dimensions and the result of
`img._getexif()` (which can raise, return `None`, or return a tag
dictionary). -/
structure PILImage where
  width : Nat
  height : Nat
  exifData : Except String (Option (List (Nat × PyVal)))

/-- The `uploads` directory: a flat map from file path to contents. -/
abbrev FS := List (String × Bytes)

/-- Read a file (`Image.open` on a local path consults this). -/
def fsLookup (fs : FS) (path : String) : Option Bytes := List.lookup path fs

/-- Write a file, overwriting any previous file at the same path
(`open(path, 'wb')` + write, as done by `img.save` / `FileStorage.save`). -/
def fsWrite (fs : FS) (path : String) (bs : Bytes) : FS :=
  (path, bs) :: fs.filter (fun e => !(e.1 == path))

/-- Delete a file (`os.remove`). -/
def fsRemove (fs : FS) (path : String) : FS :=
  fs.filter (fun e => !(e.1 == path))

/-- `s.startswith(p)` on strings, kept kernel-computable. -/
def strStartsWith (s p : String) : Bool := p.data.isPrefixOf s.data

/-- Whether a path's final component is empty (the path denotes the
directory itself), in which case opening it for writing raises. -/
def lastIsSlash (s : String) : Bool := s.data.getLast? == some '/'

/-- `os.path.basename`: everything after the last '/'. -/
def basenameAux : List Char → List Char → List Char
  | [], acc => acc.reverse
  | c :: rest, acc =>
    if c == '/' then basenameAux rest [] else basenameAux rest (c :: acc)

/-- `os.path.basename(s)` for POSIX paths. -/
def basename (s : String) : String := String.mk (basenameAux s.data [])

/-- Python `str.split()` whitespace (space, tab, newline, carriage
return, vertical tab, form feed). -/
def isPyWs (c : Char) : Bool :=
  c == ' ' || c == '\t' || c == '\n' || c == '\r' || c == Char.ofNat 11 || c == Char.ofNat 12

/-- Characters kept by werkzeug's `_filename_ascii_strip_re`
(everything outside `[A-Za-z0-9_.-]` is removed). -/
def sfKeep (c : Char) : Bool := c.isAlphanum || c == '_' || c == '.' || c == '-'

/-- Characters stripped from both ends by `.strip("._")`. -/
def sfStripChar (c : Char) : Bool := c == '.' || c == '_'

/-- Python `str.split()` (split on whitespace runs, dropping empties),
accumulating the current word in reverse. -/
def pyWordsAux : List Char → List Char → List (List Char)
  | [], cur => if cur.isEmpty then [] else [cur.reverse]
  | c :: rest, cur =>
    if isPyWs c then
      if cur.isEmpty then pyWordsAux rest []
      else cur.reverse :: pyWordsAux rest []
    else pyWordsAux rest (c :: cur)

/-- Python `str.split()` with no separator argument. -/
def pyWords (cs : List Char) : List (List Char) := pyWordsAux cs []

/-- `werkzeug.utils.secure_filename` on POSIX: drop non-ASCII (the
NFKD-normalize-then-ASCII-encode step, exact on ASCII input), replace
`os.sep` by a space, join the whitespace-split words with underscores,
delete characters outside `[A-Za-z0-9_.-]`, and strip `.` and `_` from
both ends.  The Windows reserved-name branch is dead on POSIX. -/
def sfStripEnds (cs : List Char) : List Char :=
  ((cs.dropWhile sfStripChar).reverse.dropWhile sfStripChar).reverse

/-- `werkzeug.utils.secure_filename`, assembled from the pieces above. -/
def secure_filename (s : String) : String :=
  let ascii := s.data.filter (fun c => c.toNat < 128)
  let spaced := ascii.map (fun c => if c == '/' then ' ' else c)
  let joined := List.intercalate ['_'] (pyWords spaced)
  String.mk (sfStripEnds (joined.filter sfKeep))

/-- Digit value of an ASCII digit. -/
def digitVal (c : Char) : Nat := c.toNat - 48

/-- Value of a digit string, most significant first. -/
def digitsToNat (cs : List Char) : Nat := cs.foldl (fun a c => a * 10 + digitVal c) 0

/-- Python `int(s)` for a decimal string: optional surrounding
whitespace, optional sign, then one or more digits; anything else
raises `ValueError` (modelled as `none`).  Digit-group underscores are
not modelled. -/
def pyInt (s : String) : Option Int :=
  match (s.data.dropWhile isPyWs).reverse.dropWhile isPyWs |>.reverse with
  | '-' :: ds =>
    if ds ≠ [] ∧ ds.all Char.isDigit then some (-(digitsToNat ds : Int)) else none
  | '+' :: ds =>
    if ds ≠ [] ∧ ds.all Char.isDigit then some (digitsToNat ds) else none
  | ds =>
    if ds ≠ [] ∧ ds.all Char.isDigit then some (digitsToNat ds) else none

/-- `int(request.form.get(key, dflt))`: the integer default when the
field is absent, otherwise `int(...)` of the field value, which raises
on a non-integer literal. -/
def formGetInt (form : List (String × String)) (key : String) (dflt : Int) :
    Except String Int :=
  match List.lookup key form with
  | none => Except.ok dflt
  | some s =>
    match pyInt s with
    | some n => Except.ok n
    | none => Except.error ("invalid literal for int() with base 10: " ++ s)

/-- The base64 alphabet in index order. -/
def b64Alphabet : List Char :=
  ['A', 'B', 'C', 'D', 'E', 'F', 'G', 'H', 'I', 'J', 'K', 'L', 'M',
   'N', 'O', 'P', 'Q', 'R', 'S', 'T', 'U', 'V', 'W', 'X', 'Y', 'Z',
   'a', 'b', 'c', 'd', 'e', 'f', 'g', 'h', 'i', 'j', 'k', 'l', 'm',
   'n', 'o', 'p', 'q', 'r', 's', 't', 'u', 'v', 'w', 'x', 'y', 'z',
   '0', '1', '2', '3', '4', '5', '6', '7', '8', '9', '+', '/']

/-- Character of a 6-bit group. -/
def b64Char (n : Nat) : Char := b64Alphabet.getD n '='

/-- Index of a base64 character, scanning the alphabet. -/
def b64IndexAux (c : Char) : List Char → Nat → Option Nat
  | [], _ => none
  | a :: rest, n => if a == c then some n else b64IndexAux c rest (n + 1)

/-- Inverse of `b64Char` on the alphabet; `none` off it (in particular
on `'='`). -/
def b64Index (c : Char) : Option Nat := b64IndexAux c b64Alphabet 0

/-- `base64.b64encode`: standard base64 with `'='` padding, three bytes
to four characters. -/
def base64Encode : Bytes → List Char
  | [] => []
  | [a] => [b64Char (a / 4), b64Char (a % 4 * 16), '=', '=']
  | [a, b] => [b64Char (a / 4), b64Char (a % 4 * 16 + b / 16), b64Char (b % 16 * 4), '=']
  | a :: b :: c :: rest =>
    b64Char (a / 4) :: b64Char (a % 4 * 16 + b / 16) ::
      b64Char (b % 16 * 4 + c / 64) :: b64Char (c % 64) :: base64Encode rest

/-- `base64.b64decode` on well-formed input: four characters to three
bytes, with the two padded final-group forms. -/
def base64Decode : List Char → Option Bytes
  | [] => some []
  | c1 :: c2 :: c3 :: c4 :: rest =>
    if c3 = '=' ∧ c4 = '=' ∧ rest = [] then
      match b64Index c1, b64Index c2 with
      | some n1, some n2 =>
        if n2 % 16 = 0 then some [n1 * 4 + n2 / 16] else none
      | _, _ => none
    else if c4 = '=' ∧ rest = [] then
      match b64Index c1, b64Index c2, b64Index c3 with
      | some n1, some n2, some n3 =>
        if n3 % 4 = 0 then some [n1 * 4 + n2 / 16, n2 % 16 * 16 + n3 / 4] else none
      | _, _, _ => none
    else
      match b64Index c1, b64Index c2, b64Index c3, b64Index c4, base64Decode rest with
      | some n1, some n2, some n3, some n4, some tl =>
        some ((n1 * 4 + n2 / 16) :: (n2 % 16 * 16 + n3 / 4) :: (n3 % 4 * 64 + n4) :: tl)
      | _, _, _, _, _ => none
  | _ => none

/-- `round_aspect` inside PIL's `Image.thumbnail`: of the floor and the
ceiling, the one whose aspect error (measured by `key`) is smaller,
floor winning ties, and never below 1. -/
def roundAspect (q : Rat) (key : Int → Rat) : Int :=
  max (if key ⌊q⌋ ≤ key ⌈q⌉ then ⌊q⌋ else ⌈q⌉) 1

/-- Modelled from the spec: the resize of step 3 ("shrink it in place so
neither dimension exceeds the requested width/height while preserving
aspect ratio") is performed by `img.thumbnail((width, height))`, PIL
library code that is not under `src/`.  This is PIL's documented
algorithm with exact rational arithmetic in place of Python floats:
return unchanged when the image already fits, otherwise fix one
dimension to the requested bound and round the other to best preserve
the aspect ratio. -/
def pilThumbnail (w h : Nat) (W H : Int) : Nat × Nat :=
  if (w : Int) ≤ W ∧ (h : Int) ≤ H then (w, h)
  else if (w : Rat) / (h : Rat) ≤ (W : Rat) / (H : Rat) then
    ((roundAspect ((H : Rat) * ((w : Rat) / (h : Rat)))
        (fun n => |(w : Rat) / (h : Rat) - (n : Rat) / (H : Rat)|)).toNat,
      H.toNat)
  else
    (W.toNat,
      (roundAspect ((W : Rat) / ((w : Rat) / (h : Rat)))
        (fun n => if n = 0 then 0 else |(w : Rat) / (h : Rat) - (W : Rat) / (n : Rat)|)).toNat)

/-- The ambient effectful operations, as pure oracles: `urlopen`,
`Image.open` on a byte stream, `img.save(path)` (the bytes written, or
the exception), `img.save(buffer, 'JPEG')`, `bytes.decode()`,
Python `str()` of a byte string, and the `PIL.ExifTags.TAGS` table. -/
structure Env where
  net : String → Except String Bytes
  openBytes : Bytes → Except String PILImage
  saveImage : PILImage → String → Except String Bytes
  encodeJPEG : PILImage → Except String Bytes
  utf8Decode : Bytes → Except String String
  bytesRepr : Bytes → String
  tagName : Nat → Option String

/-- `Image.open` on a path: URLs are fetched, local paths read from the
uploads directory; a missing file raises. -/
def imageOpen (env : Env) (fs : FS) (path : String) : Except String PILImage :=
  if strStartsWith path "http://" || strStartsWith path "https://" then
    match env.net path with
    | Except.error e => Except.error e
    | Except.ok bs => env.openBytes bs
  else
    match fsLookup fs path with
    | none => Except.error ("FileNotFoundError: " ++ path)
    | some bs => env.openBytes bs

/-- `TAGS.get(tag_id, tag_id)`. -/
def tagKeyOf (env : Env) (t : Nat) : TagKey :=
  match env.tagName t with
  | some s => TagKey.name s
  | none => TagKey.id t

/-- The per-value body of the metadata loop: byte values are decoded as
text, falling back to their `str()` representation when decoding
raises `UnicodeDecodeError`; other values pass through. -/
def decodeExifVal (env : Env) (v : PyVal) : PyVal :=
  match v with
  | PyVal.pbytes bs =>
    match env.utf8Decode bs with
    | Except.ok s => PyVal.pstr s
    | Except.error _ => PyVal.pstr (env.bytesRepr bs)
  | other => other

/-- The body of `get_image_metadata`'s `try` block: open the image, read
`_getexif()`, and translate the tag dictionary; any step can raise. -/
def getMetadataE (env : Env) (fs : FS) (path : String) :
    Except String (List (TagKey × PyVal)) :=
  match imageOpen env fs path with
  | Except.error e => Except.error e
  | Except.ok img =>
    match img.exifData with
    | Except.error e => Except.error e
    | Except.ok none => Except.ok []
    | Except.ok (some tags) =>
      Except.ok (tags.map (fun p => (tagKeyOf env p.1, decodeExifVal env p.2)))

/-- `get_image_metadata` (server.py lines 18–49): the `try` body with the
catch-all `except` returning the empty mapping. -/
def get_image_metadata (env : Env) (fs : FS) (path : String) : List (TagKey × PyVal) :=
  match getMetadataE env fs path with
  | Except.ok m => m
  | Except.error _ => []

/-- `generate_thumbnail` (server.py lines 52–81): open the image at the
path, shrink it with `img.thumbnail((width, height))`, re-encode as
JPEG; `None` when anything raises. -/
def generate_thumbnail (env : Env) (fs : FS) (image_path : String)
    (width height : Int) : Option Bytes :=
  match imageOpen env fs image_path with
  | Except.error _ => none
  | Except.ok img =>
    match env.encodeJPEG
        { img with
          width := (pilThumbnail img.width img.height width height).1,
          height := (pilThumbnail img.width img.height width height).2 } with
    | Except.error _ => none
    | Except.ok bs => some bs

/-- The JSON body of a response: the fields the endpoint ever sets. -/
structure JsonBody where
  error : Option String := none
  thumbnailUrl : Option String := none
  metadata : Option (List (TagKey × PyVal)) := none
  deriving DecidableEq, Repr

/-- Outcome of one request: an HTTP response, or an exception escaping
the handler. -/
inductive HandlerResult where
  | response (status : Nat) (body : JsonBody)
  | raised (msg : String)
  deriving DecidableEq, Repr

/-- An uploaded file as seen in `request.files`. -/
structure UploadedFile where
  filename : String
  content : Bytes
  deriving DecidableEq, Repr

/-- A request: its form fields and its file fields. -/
structure Request where
  form : List (String × String)
  files : List (String × UploadedFile)
  deriving DecidableEq, Repr

/-- server.py lines 95–103: the `try` body of the URL branch — fetch the
URL, decode it, and save the decoded image under
`uploads/secure_filename(basename(url))`; returns the temp path and the
bytes written.  Saving to the bare directory (empty sanitized name)
raises inside the same `try`. -/
def downloadAndSave (env : Env) (image_url : String) : Except String (String × Bytes) :=
  match env.net image_url with
  | Except.error e => Except.error e
  | Except.ok raw =>
    match env.openBytes raw with
    | Except.error e => Except.error e
    | Except.ok img =>
      if lastIsSlash ("uploads/" ++ secure_filename (basename image_url)) then
        Except.error "ValueError: unknown file extension"
      else
        match env.saveImage img ("uploads/" ++ secure_filename (basename image_url)) with
        | Except.error e => Except.error e
        | Except.ok written =>
          Except.ok ("uploads/" ++ secure_filename (basename image_url), written)

/-- `image_file.save(image_path)` (werkzeug `FileStorage.save`): writes
the uploaded bytes, raising `IsADirectoryError` when the path is the
uploads directory itself; this call is not inside any `try`. -/
def fileSave (fs : FS) (path : String) (content : Bytes) : Except String FS :=
  if lastIsSlash path then Except.error "IsADirectoryError"
  else Except.ok (fsWrite fs path content)

/-- server.py lines 116–137: the tail of the handler shared by both
sources — generate the thumbnail (500 on failure, skipping cleanup),
extract metadata, build the data URI, delete the temp file when the
source was a URL, and answer 200. -/
def thumbnailAfterSource (env : Env) (fs : FS) (image_path : String)
    (width height : Int) (temp_filepath : Option String) : HandlerResult × FS :=
  match generate_thumbnail env fs image_path width height with
  | none => (HandlerResult.response 500 { error := some "Failed to generate thumbnail" }, fs)
  | some buf =>
    (HandlerResult.response 200
      { thumbnailUrl := some ("data:image/jpeg;base64," ++ String.mk (base64Encode buf)),
        metadata := some (get_image_metadata env fs image_path) },
      match temp_filepath with
      | some p => fsRemove fs p
      | none => fs)

/-- The `/thumbnail` handler (server.py lines 84–137): parse dimensions
(uncaught `ValueError` on non-integer input), resolve the image source
(URL branch wins when both are present), save it into `uploads/`, and
finish with `thumbnailAfterSource`. -/
def thumbnail (env : Env) (fs : FS) (req : Request) : HandlerResult × FS :=
  match formGetInt req.form "width" 100 with
  | Except.error e => (HandlerResult.raised e, fs)
  | Except.ok width =>
    match formGetInt req.form "height" 100 with
    | Except.error e => (HandlerResult.raised e, fs)
    | Except.ok height =>
      match List.lookup "imageUrl" req.form with
      | some image_url =>
        match downloadAndSave env image_url with
        | Except.error e =>
          (HandlerResult.response 400
            { error := some ("Error downloading image from URL: " ++ e) }, fs)
        | Except.ok (temp_filepath, written) =>
          thumbnailAfterSource env (fsWrite fs temp_filepath written) temp_filepath
            width height (some temp_filepath)
      | none =>
        match List.lookup "image" req.files with
        | some image_file =>
          if image_file.filename = "" then
            (HandlerResult.response 400 { error := some "No selected file" }, fs)
          else
            match fileSave fs ("uploads/" ++ secure_filename image_file.filename)
                image_file.content with
            | Except.error e => (HandlerResult.raised e, fs)
            | Except.ok fs1 =>
              thumbnailAfterSource env fs1
                ("uploads/" ++ secure_filename image_file.filename) width height none
        | none =>
          (HandlerResult.response 400 { error := some "Missing imageUrl or image file" }, fs)

/-- A 10×10 image with no EXIF table, used as a concrete witness image. -/
def exImage : PILImage := { width := 10, height := 10, exifData := Except.ok none }

/-- An environment in which every operation succeeds: fetches return a
fixed payload, decoding yields `exImage`, saving writes two bytes, and
JPEG encoding returns three bytes. -/
def exEnvOk : Env :=
  { net := fun _ => Except.ok [1, 2, 3],
    openBytes := fun _ => Except.ok exImage,
    saveImage := fun _ _ => Except.ok [9, 9],
    encodeJPEG := fun _ => Except.ok [1, 2, 3],
    utf8Decode := fun _ => Except.error "UnicodeDecodeError",
    bytesRepr := fun _ => "",
    tagName := fun _ => none }

/-- Like `exEnvOk` but JPEG re-encoding raises (as PIL does for an RGBA
image saved as JPEG). -/
def exEnvJpegFail : Env :=
  { exEnvOk with encodeJPEG := fun _ => Except.error "cannot write mode RGBA as JPEG" }

/-- Like `exEnvOk` but the network fetch raises. -/
def exEnvNetFail : Env :=
  { exEnvOk with net := fun _ => Except.error "URLError: unreachable host" }

/-- Like `exEnvOk` but image decoding raises (a corrupt file). -/
def exEnvOpenFail : Env :=
  { exEnvOk with openBytes := fun _ => Except.error "cannot identify image file" }

/-- A URL-sourced request. -/
def exReqUrl : Request := { form := [("imageUrl", "http://host/pic.jpg")], files := [] }

/-- An upload-sourced request with a well-behaved filename. -/
def exReqUpload : Request :=
  { form := [], files := [("image", { filename := "photo.jpg", content := [7] })] }

/-- An upload-sourced request whose filename sanitizes to the empty
string. -/
def exReqDotDot : Request :=
  { form := [], files := [("image", { filename := "..", content := [7] })] }

theorem b64Index_b64Char : ∀ n < 64, b64Index (b64Char n) = some n := by decide

theorem b64Char_ne_pad : ∀ n < 64, ¬ b64Char n = '=' := by decide

theorem base64_roundtrip : ∀ (bs : Bytes), (∀ b ∈ bs, b < 256) →
    base64Decode (base64Encode bs) = some bs
  | [], _ => rfl
  | [a], h => by
    have ha : a < 256 := h a (by simp)
    simp only [base64Encode, base64Decode,
      b64Index_b64Char _ (show a / 4 < 64 by omega),
      b64Index_b64Char _ (show a % 4 * 16 < 64 by omega)]
    rw [if_pos (by simp)]
    simp only [if_pos (show a % 4 * 16 % 16 = 0 by omega)]
    have : a / 4 * 4 + a % 4 * 16 / 16 = a := by omega
    rw [this]
  | [a, b], h => by
    have ha : a < 256 := h a (by simp)
    have hb : b < 256 := h b (by simp)
    simp only [base64Encode, base64Decode,
      b64Index_b64Char _ (show a / 4 < 64 by omega),
      b64Index_b64Char _ (show a % 4 * 16 + b / 16 < 64 by omega),
      b64Index_b64Char _ (show b % 16 * 4 < 64 by omega)]
    rw [if_neg (fun hcon => b64Char_ne_pad (b % 16 * 4) (by omega) hcon.1)]
    rw [if_pos (by simp)]
    simp only [if_pos (show b % 16 * 4 % 4 = 0 by omega)]
    have h1 : a / 4 * 4 + (a % 4 * 16 + b / 16) / 16 = a := by omega
    have h2 : (a % 4 * 16 + b / 16) % 16 * 16 + b % 16 * 4 / 4 = b := by omega
    rw [h1, h2]
  | a :: b :: c :: rest, h => by
    have ha : a < 256 := h a (by simp)
    have hb : b < 256 := h b (by simp)
    have hc : c < 256 := h c (by simp)
    have ih := base64_roundtrip rest (fun x hx => h x (by simp [hx]))
    simp only [base64Encode]
    rw [base64Decode]
    rw [if_neg (fun hcon => b64Char_ne_pad (b % 16 * 4 + c / 64) (by omega) hcon.1)]
    rw [if_neg (fun hcon => b64Char_ne_pad (c % 64) (by omega) hcon.1)]
    simp only [b64Index_b64Char _ (show a / 4 < 64 by omega),
      b64Index_b64Char _ (show a % 4 * 16 + b / 16 < 64 by omega),
      b64Index_b64Char _ (show b % 16 * 4 + c / 64 < 64 by omega),
      b64Index_b64Char _ (show c % 64 < 64 by omega), ih]
    have h1 : a / 4 * 4 + (a % 4 * 16 + b / 16) / 16 = a := by omega
    have h2 : (a % 4 * 16 + b / 16) % 16 * 16 + (b % 16 * 4 + c / 64) / 4 = b := by omega
    have h3 : (b % 16 * 4 + c / 64) % 4 * 64 + c % 64 = c := by omega
    rw [h1, h2, h3]

theorem fsLookup_fsWrite_self (fs : FS) (p : String) (bs : Bytes) :
    fsLookup (fsWrite fs p bs) p = some bs := by
  simp [fsLookup, fsWrite, List.lookup]

theorem fsLookup_fsRemove_self (fs : FS) (p : String) :
    fsLookup (fsRemove fs p) p = none := by
  induction fs with
  | nil => rfl
  | cons e rest ih =>
    obtain ⟨k, v⟩ := e
    simp only [fsRemove, List.filter_cons] at ih ⊢
    cases hkp : (k == p) with
    | true =>
      simp only [hkp, Bool.not_true, Bool.false_eq_true, if_false]
      exact ih
    | false =>
      simp only [hkp, Bool.not_false, if_true, fsLookup, List.lookup_cons]
      have hpk : (p == k) = false := by
        rw [beq_eq_false_iff_ne] at hkp ⊢
        exact fun hp => hkp hp.symm
      simp only [hpk]
      exact ih

theorem mem_of_getLast?_eq (l : List Char) (c : Char) (h : l.getLast? = some c) : c ∈ l := by
  induction l with
  | nil => simp at h
  | cons a rest ih =>
    cases rest with
    | nil =>
      simp only [List.getLast?_singleton, Option.some.injEq] at h
      simp [h]
    | cons b t =>
      rw [List.getLast?_cons_cons] at h
      exact List.mem_cons_of_mem _ (ih h)

theorem mem_sfStripEnds (cs : List Char) (c : Char) (h : c ∈ sfStripEnds cs) : c ∈ cs := by
  simp only [sfStripEnds, List.mem_reverse] at h
  have h1 := (List.dropWhile_sublist sfStripChar).subset h
  rw [List.mem_reverse] at h1
  exact (List.dropWhile_sublist sfStripChar).subset h1

theorem sfKeep_of_mem_secure_filename (s : String) :
    ∀ c ∈ (secure_filename s).data, sfKeep c = true := by
  intro c hc
  simp only [secure_filename] at hc
  have h1 : c ∈ (List.intercalate ['_']
      (pyWords ((s.data.filter (fun c => c.toNat < 128)).map
        (fun c => if c == '/' then ' ' else c)))).filter sfKeep :=
    mem_sfStripEnds _ c hc
  exact (List.mem_filter.mp h1).2

theorem lastIsSlash_uploads_append (t : String) (hne : t ≠ "")
    (hall : ∀ c ∈ t.data, sfKeep c = true) :
    lastIsSlash ("uploads/" ++ t) = false := by
  have hdata : t.data ≠ [] := by
    intro h
    apply hne
    cases t with
    | mk l => simp at h; simp [h]
  obtain ⟨c, hc⟩ : ∃ c, t.data.getLast? = some c := by
    cases h : t.data.getLast? with
    | none => exact absurd (List.getLast?_eq_none_iff.mp h) hdata
    | some c => exact ⟨c, rfl⟩
  have hcmem : c ∈ t.data := mem_of_getLast?_eq _ _ hc
  have hkeep : sfKeep c = true := hall c hcmem
  have hcs : ¬ c = '/' := by
    intro h
    rw [h] at hkeep
    simp [sfKeep, Char.isAlphanum, Char.isAlpha, Char.isDigit, Char.isUpper, Char.isLower] at hkeep
  unfold lastIsSlash
  rw [String.data_append, List.getLast?_append, hc, Option.or_some]
  simp [hcs]

theorem roundAspect_one_le (q : Rat) (key : Int → Rat) : 1 ≤ roundAspect q key :=
  le_max_right _ _

theorem roundAspect_le_of_le (q : Rat) (key : Int → Rat) (B : Int)
    (hq : q ≤ (B : Rat)) (hB : 1 ≤ B) : roundAspect q key ≤ B := by
  unfold roundAspect
  apply max_le _ hB
  split
  · exact (Int.floor_mono hq).trans_eq (Int.floor_intCast B)
  · exact (Int.ceil_mono hq).trans_eq (Int.ceil_intCast B)

theorem roundAspect_close (q : Rat) (key : Int → Rat) (hq : 0 < q) :
    |((roundAspect q key : Int) : Rat) - q| < 1 := by
  unfold roundAspect
  have hfl : (⌊q⌋ : Rat) ≤ q := Int.floor_le q
  have hfu : q < (⌊q⌋ : Rat) + 1 := Int.lt_floor_add_one q
  have hcl : q ≤ (⌈q⌉ : Rat) := Int.le_ceil q
  have hcu : (⌈q⌉ : Rat) < q + 1 := Int.ceil_lt_add_one q
  set c : Int := if key ⌊q⌋ ≤ key ⌈q⌉ then ⌊q⌋ else ⌈q⌉ with hc
  have hcalt : c = ⌊q⌋ ∨ c = ⌈q⌉ := by
    rw [hc]
    split
    · exact Or.inl rfl
    · exact Or.inr rfl
  rcases le_or_lt 1 c with h1 | h1
  · rw [max_eq_left h1]
    rcases hcalt with h2 | h2 <;> rw [h2] <;> rw [abs_sub_lt_iff] <;>
      constructor <;> push_cast <;> linarith
  · rw [max_eq_right h1.le]
    have hc0 : c ≤ 0 := by omega
    rcases hcalt with h2 | h2
    · have hfl0 : (⌊q⌋ : Rat) ≤ 0 := by exact_mod_cast h2 ▸ hc0
      rw [abs_sub_lt_iff]
      constructor <;> push_cast <;> linarith
    · exfalso
      have hcl0 : (⌈q⌉ : Rat) ≤ 0 := by exact_mod_cast h2 ▸ hc0
      linarith

/-- C10: the resize never enlarges — when the original width and height
are already within the requested bounds, `img.thumbnail` returns before
resampling and the thumbnail keeps exactly the original dimensions. -/
theorem c10_no_upscale (w h : Nat) (W H : Int)
    (hw : (w : Int) ≤ W) (hh : (h : Int) ≤ H) :
    pilThumbnail w h W H = (w, h) := by
  unfold pilThumbnail
  rw [if_pos ⟨hw, hh⟩]

/-- Witness for C10 at a concrete input: a 10×20 image requested at
100×100 is returned unchanged. -/
theorem c10_no_upscale_witness : pilThumbnail 10 20 100 100 = (10, 20) :=
  c10_no_upscale 10 20 100 100 (by decide) (by decide)

/-- C2: for a valid image (positive dimensions) and positive requested
bounds, the resized dimensions do not exceed the requested width and
height, and the aspect ratio is preserved within rounding: the
cross-product error `|w' * h - h' * w|` stays below `max w h`, i.e. the
rounded dimension differs from the exact aspect-preserving value by
less than one pixel. -/
theorem c2_thumbnail_bounds (w h : Nat) (W H : Int)
    (hw : 0 < w) (hh : 0 < h) (hW : 0 < W) (hH : 0 < H) :
    ((pilThumbnail w h W H).1 : Int) ≤ W ∧ ((pilThumbnail w h W H).2 : Int) ≤ H ∧
      |((pilThumbnail w h W H).1 : Rat) * (h : Rat) -
        ((pilThumbnail w h W H).2 : Rat) * (w : Rat)| < max (w : Rat) (h : Rat) := by
  have hw0 : (0 : Rat) < (w : Rat) := by exact_mod_cast hw
  have hh0 : (0 : Rat) < (h : Rat) := by exact_mod_cast hh
  have hW0 : (0 : Rat) < (W : Rat) := by exact_mod_cast hW
  have hH0 : (0 : Rat) < (H : Rat) := by exact_mod_cast hH
  unfold pilThumbnail
  by_cases hcond : (w : Int) ≤ W ∧ (h : Int) ≤ H
  · rw [if_pos hcond]
    refine ⟨hcond.1, hcond.2, ?_⟩
    have : ((w : Nat) : Rat) * (h : Rat) - ((h : Nat) : Rat) * (w : Rat) = 0 := by ring
    rw [this, abs_zero]
    exact lt_of_lt_of_le hw0 (le_max_left _ _)
  · rw [if_neg hcond]
    by_cases hb : (w : Rat) / (h : Rat) ≤ (W : Rat) / (H : Rat)
    · rw [if_pos hb]
      have hq0 : 0 < (H : Rat) * ((w : Rat) / (h : Rat)) :=
        mul_pos hH0 (div_pos hw0 hh0)
      have hcross : (w : Rat) * (H : Rat) ≤ (W : Rat) * (h : Rat) :=
        (div_le_div_iff hh0 hH0).mp hb
      have hqW : (H : Rat) * ((w : Rat) / (h : Rat)) ≤ (W : Rat) := by
        rw [mul_div_assoc', div_le_iff₀ hh0]
        linarith
      set x := roundAspect ((H : Rat) * ((w : Rat) / (h : Rat)))
        (fun n => |(w : Rat) / (h : Rat) - (n : Rat) / (H : Rat)|) with hxdef
      have hx1 : 1 ≤ x := roundAspect_one_le _ _
      have hxW : x ≤ W := roundAspect_le_of_le _ _ W hqW (by omega)
      have hxT : ((x.toNat : Int)) = x := Int.toNat_of_nonneg (by omega)
      have hHT : ((H.toNat : Int)) = H := Int.toNat_of_nonneg hH.le
      have hxQ : ((x.toNat : Nat) : Rat) = ((x : Int) : Rat) := by
        have h1 := congrArg (fun z : Int => (z : Rat)) hxT
        push_cast at h1
        push_cast
        exact h1
      have hHQ : ((H.toNat : Nat) : Rat) = ((H : Int) : Rat) := by
        have h1 := congrArg (fun z : Int => (z : Rat)) hHT
        push_cast at h1
        push_cast
        exact h1
      refine ⟨?_, ?_, ?_⟩
      · show ((x.toNat : Nat) : Int) ≤ W
        rw [hxT]
        exact hxW
      · show ((H.toNat : Nat) : Int) ≤ H
        rw [hHT]
      · show |((x.toNat : Nat) : Rat) * (h : Rat) - ((H.toNat : Nat) : Rat) * (w : Rat)| <
          max (w : Rat) (h : Rat)
        rw [hxQ, hHQ]
        have hclose := roundAspect_close ((H : Rat) * ((w : Rat) / (h : Rat)))
          (fun n => |(w : Rat) / (h : Rat) - (n : Rat) / (H : Rat)|) hq0
        rw [← hxdef] at hclose
        have hstep : |(((x : Int) : Rat) - (H : Rat) * ((w : Rat) / (h : Rat))) * (h : Rat)| <
            (h : Rat) := by
          rw [abs_mul, abs_of_pos hh0]
          calc |((x : Int) : Rat) - (H : Rat) * ((w : Rat) / (h : Rat))| * (h : Rat)
              < 1 * (h : Rat) := by
                exact mul_lt_mul_of_pos_right hclose hh0
            _ = (h : Rat) := one_mul _
        have hqh : (H : Rat) * ((w : Rat) / (h : Rat)) * (h : Rat) = (H : Rat) * (w : Rat) := by
          rw [mul_div_assoc', div_mul_cancel₀ _ (ne_of_gt hh0)]
        rw [sub_mul, hqh] at hstep
        calc |((x : Int) : Rat) * (h : Rat) - ((H : Int) : Rat) * (w : Rat)|
            < (h : Rat) := hstep
          _ ≤ max (w : Rat) (h : Rat) := le_max_right _ _
    · rw [if_neg hb]
      have hlt : (W : Rat) / (H : Rat) < (w : Rat) / (h : Rat) := lt_of_not_le hb
      have hcross : (W : Rat) * (h : Rat) < (w : Rat) * (H : Rat) :=
        (div_lt_div_iff hH0 hh0).mp hlt
      have hq0 : 0 < (W : Rat) / ((w : Rat) / (h : Rat)) :=
        div_pos hW0 (div_pos hw0 hh0)
      have hqH : (W : Rat) / ((w : Rat) / (h : Rat)) ≤ (H : Rat) := by
        rw [div_div_eq_mul_div, div_le_iff₀ hw0]
        linarith
      set y := roundAspect ((W : Rat) / ((w : Rat) / (h : Rat)))
        (fun n => if n = 0 then 0 else |(w : Rat) / (h : Rat) - (W : Rat) / (n : Rat)|) with hydef
      have hy1 : 1 ≤ y := roundAspect_one_le _ _
      have hyH : y ≤ H := roundAspect_le_of_le _ _ H hqH (by omega)
      have hyT : ((y.toNat : Int)) = y := Int.toNat_of_nonneg (by omega)
      have hWT : ((W.toNat : Int)) = W := Int.toNat_of_nonneg hW.le
      have hyQ : ((y.toNat : Nat) : Rat) = ((y : Int) : Rat) := by
        have h1 := congrArg (fun z : Int => (z : Rat)) hyT
        push_cast at h1
        push_cast
        exact h1
      have hWQ : ((W.toNat : Nat) : Rat) = ((W : Int) : Rat) := by
        have h1 := congrArg (fun z : Int => (z : Rat)) hWT
        push_cast at h1
        push_cast
        exact h1
      refine ⟨?_, ?_, ?_⟩
      · show ((W.toNat : Nat) : Int) ≤ W
        rw [hWT]
      · show ((y.toNat : Nat) : Int) ≤ H
        rw [hyT]
        exact hyH
      · show |((W.toNat : Nat) : Rat) * (h : Rat) - ((y.toNat : Nat) : Rat) * (w : Rat)| <
          max (w : Rat) (h : Rat)
        rw [hyQ, hWQ]
        have hclose := roundAspect_close ((W : Rat) / ((w : Rat) / (h : Rat)))
          (fun n => if n = 0 then 0 else |(w : Rat) / (h : Rat) - (W : Rat) / (n : Rat)|) hq0
        rw [← hydef] at hclose
        have hstep : |(((y : Int) : Rat) - (W : Rat) / ((w : Rat) / (h : Rat))) * (w : Rat)| <
            (w : Rat) := by
          rw [abs_mul, abs_of_pos hw0]
          calc |((y : Int) : Rat) - (W : Rat) / ((w : Rat) / (h : Rat))| * (w : Rat)
              < 1 * (w : Rat) := by
                exact mul_lt_mul_of_pos_right hclose hw0
            _ = (w : Rat) := one_mul _
        have hqw : (W : Rat) / ((w : Rat) / (h : Rat)) * (w : Rat) = (W : Rat) * (h : Rat) := by
          rw [div_div_eq_mul_div, div_mul_cancel₀ _ (ne_of_gt hw0)]
        rw [sub_mul, hqw] at hstep
        calc |((W : Int) : Rat) * (h : Rat) - ((y : Int) : Rat) * (w : Rat)|
            = |((y : Int) : Rat) * (w : Rat) - (W : Rat) * (h : Rat)| := by
              rw [abs_sub_comm]
          _ < (w : Rat) := hstep
          _ ≤ max (w : Rat) (h : Rat) := le_max_left _ _

/-- Witness for C2 at a concrete input: a 400×300 image requested at
100×100 satisfies the bound and aspect conclusions. -/
theorem c2_thumbnail_bounds_witness :
    ((pilThumbnail 400 300 100 100).1 : Int) ≤ 100 ∧
      ((pilThumbnail 400 300 100 100).2 : Int) ≤ 100 ∧
      |((pilThumbnail 400 300 100 100).1 : Rat) * (300 : Rat) -
        ((pilThumbnail 400 300 100 100).2 : Rat) * (400 : Rat)| <
          max (400 : Rat) (300 : Rat) :=
  c2_thumbnail_bounds 400 300 100 100 (by decide) (by decide) (by decide) (by decide)

theorem downloadAndSave_path (env : Env) (u p : String) (bs : Bytes)
    (hds : downloadAndSave env u = Except.ok (p, bs)) :
    p = "uploads/" ++ secure_filename (basename u) := by
  unfold downloadAndSave at hds
  split at hds
  · simp at hds
  · split at hds
    · simp at hds
    · split at hds
      · simp at hds
      · split at hds
        · simp at hds
        · simp at hds
          exact hds.1.symm

/-- C3: metadata extraction is non-fatal — whenever any step of
`get_image_metadata`'s body raises, it returns the empty mapping (the
function is total by construction, mirroring the catch-all `except`);
and once `generate_thumbnail` has succeeded, the handler tail answers
200 whatever the metadata extraction produces. -/
theorem c3_metadata_nonfatal (env : Env) (fs : FS) (path : String) :
    (∀ e, getMetadataE env fs path = Except.error e → get_image_metadata env fs path = []) ∧
    (∀ (W H : Int) (temp : Option String) (buf : Bytes),
      generate_thumbnail env fs path W H = some buf →
      (thumbnailAfterSource env fs path W H temp).1 =
        HandlerResult.response 200
          { thumbnailUrl := some ("data:image/jpeg;base64," ++ String.mk (base64Encode buf)),
            metadata := some (get_image_metadata env fs path) }) := by
  constructor
  · intro e he
    unfold get_image_metadata
    rw [he]
  · intro W H temp buf hgen
    unfold thumbnailAfterSource
    rw [hgen]

/-- C5: on the success path the `thumbnailUrl` field is exactly the
JPEG data-URI prefix followed by the base64 encoding of the generated
thumbnail buffer, and stripping the prefix and base64-decoding recovers
the buffer exactly. -/
theorem c5_dataurl_roundtrip (env : Env) (fs : FS) (path : String) (W H : Int)
    (temp : Option String) (buf : Bytes)
    (hgen : generate_thumbnail env fs path W H = some buf)
    (hbytes : ∀ b ∈ buf, b < 256) :
    ∃ s : String,
      (thumbnailAfterSource env fs path W H temp).1 =
        HandlerResult.response 200
          { thumbnailUrl := some ("data:image/jpeg;base64," ++ s),
            metadata := some (get_image_metadata env fs path) } ∧
      base64Decode s.data = some buf := by
  refine ⟨String.mk (base64Encode buf), ?_, ?_⟩
  · unfold thumbnailAfterSource
    rw [hgen]
  · show base64Decode (base64Encode buf) = some buf
    exact base64_roundtrip buf hbytes

/-- C4: width and height resolution — absent fields fall back to 100
(adding explicit "100" fields does not change the outcome), while a
present non-integer field makes the handler raise an uncaught
`ValueError` instead of answering 400 or falling back. -/
theorem c4_dimension_parsing (env : Env) (fs : FS) (req : Request) :
    (List.lookup "width" req.form = none → List.lookup "height" req.form = none →
      thumbnail env fs req =
        thumbnail env fs { req with form := ("width", "100") :: ("height", "100") :: req.form }) ∧
    (∀ s, List.lookup "width" req.form = some s → pyInt s = none →
      thumbnail env fs req =
        (HandlerResult.raised ("invalid literal for int() with base 10: " ++ s), fs)) ∧
    (∀ s W, formGetInt req.form "width" 100 = Except.ok W →
      List.lookup "height" req.form = some s → pyInt s = none →
      thumbnail env fs req =
        (HandlerResult.raised ("invalid literal for int() with base 10: " ++ s), fs)) := by
  refine ⟨?_, ?_, ?_⟩
  · intro h1 h2
    have e1 : formGetInt req.form "width" 100 = Except.ok 100 := by
      unfold formGetInt
      rw [h1]
    have e2 : formGetInt req.form "height" 100 = Except.ok 100 := by
      unfold formGetInt
      rw [h2]
    have e3 : formGetInt (("width", "100") :: ("height", "100") :: req.form) "width" 100 =
        Except.ok 100 := rfl
    have e4 : formGetInt (("width", "100") :: ("height", "100") :: req.form) "height" 100 =
        Except.ok 100 := rfl
    have e5 : List.lookup "imageUrl" (("width", "100") :: ("height", "100") :: req.form) =
        List.lookup "imageUrl" req.form := rfl
    unfold thumbnail
    rw [e1, e2, e3, e4, e5]
  · intro s hws hbad
    have e1 : formGetInt req.form "width" 100 =
        Except.error ("invalid literal for int() with base 10: " ++ s) := by
      simp only [formGetInt, hws, hbad]
    unfold thumbnail
    rw [e1]
  · intro s W hwok hhs hbad
    have e2 : formGetInt req.form "height" 100 =
        Except.error ("invalid literal for int() with base 10: " ++ s) := by
      simp only [formGetInt, hhs, hbad]
    unfold thumbnail
    rw [hwok, e2]

/-- C6: when the URL branch's fetch/decode/save raises, the handler
answers 400 with the message carrying the underlying cause, leaves the
uploads directory untouched, and never reaches thumbnail generation
(the outcome is independent of the JPEG encoder). -/
theorem c6_url_fetch_failure (env : Env) (fs : FS) (req : Request) (url e : String) (W H : Int)
    (hw : formGetInt req.form "width" 100 = Except.ok W)
    (hh : formGetInt req.form "height" 100 = Except.ok H)
    (hurl : List.lookup "imageUrl" req.form = some url)
    (hfail : downloadAndSave env url = Except.error e) :
    thumbnail env fs req =
      (HandlerResult.response 400
        { error := some ("Error downloading image from URL: " ++ e) }, fs) ∧
    ∀ g, thumbnail { env with encodeJPEG := g } fs req =
      (HandlerResult.response 400
        { error := some ("Error downloading image from URL: " ++ e) }, fs) := by
  have key : ∀ env2 : Env, downloadAndSave env2 url = Except.error e →
      thumbnail env2 fs req =
        (HandlerResult.response 400
          { error := some ("Error downloading image from URL: " ++ e) }, fs) := by
    intro env2 hf
    unfold thumbnail
    simp only [hw, hh, hurl, hf]
  refine ⟨key env hfail, fun g => key _ ?_⟩
  show downloadAndSave env url = Except.error e
  exact hfail

/-- C7: an image that cannot be decoded or re-encoded (here: a corrupt
upload) makes `generate_thumbnail` return no result and the handler
answer 500 with "Failed to generate thumbnail"; the saved upload stays
in place. -/
theorem c7_corrupt_upload_500 (env : Env) (fs : FS) (req : Request) (f : UploadedFile)
    (W H : Int)
    (hw : formGetInt req.form "width" 100 = Except.ok W)
    (hh : formGetInt req.form "height" 100 = Except.ok H)
    (hnourl : List.lookup "imageUrl" req.form = none)
    (hfile : List.lookup "image" req.files = some f)
    (hne : ¬ f.filename = "")
    (hsf : ¬ secure_filename f.filename = "")
    (hgen : generate_thumbnail env
        (fsWrite fs ("uploads/" ++ secure_filename f.filename) f.content)
        ("uploads/" ++ secure_filename f.filename) W H = none) :
    thumbnail env fs req =
      (HandlerResult.response 500 { error := some "Failed to generate thumbnail" },
        fsWrite fs ("uploads/" ++ secure_filename f.filename) f.content) := by
  have hslash : lastIsSlash ("uploads/" ++ secure_filename f.filename) = false :=
    lastIsSlash_uploads_append _ hsf (sfKeep_of_mem_secure_filename f.filename)
  have hfs : fileSave fs ("uploads/" ++ secure_filename f.filename) f.content =
      Except.ok (fsWrite fs ("uploads/" ++ secure_filename f.filename) f.content) := by
    unfold fileSave
    rw [hslash]
    simp
  have hafter : thumbnailAfterSource env
      (fsWrite fs ("uploads/" ++ secure_filename f.filename) f.content)
      ("uploads/" ++ secure_filename f.filename) W H none =
      (HandlerResult.response 500 { error := some "Failed to generate thumbnail" },
        fsWrite fs ("uploads/" ++ secure_filename f.filename) f.content) := by
    unfold thumbnailAfterSource
    rw [hgen]
  unfold thumbnail
  simp only [hw, hh, hnourl, hfile, if_neg hne, hfs, hafter]

/-- C8: the URL source takes precedence — when `imageUrl` is present
the request is processed identically whether or not a file was
uploaded; in particular the uploaded file is never saved. -/
theorem c8_url_precedence (env : Env) (fs : FS) (req : Request) (url : String)
    (hurl : List.lookup "imageUrl" req.form = some url) :
    thumbnail env fs req = thumbnail env fs { req with files := [] } := by
  unfold thumbnail
  cases hw : formGetInt req.form "width" 100 with
  | error e => rfl
  | ok W =>
    cases hh : formGetInt req.form "height" 100 with
    | error e => rfl
    | ok H => rw [hurl]

/-- C9: a non-empty filename that sanitizes to the empty string (such
as "..") slips past the empty-filename check, the save path degenerates
to the uploads directory itself, and the save call raises an uncaught
`IsADirectoryError` instead of producing a 400 response. -/
theorem c9_dotdot_upload_raises (env : Env) (fs : FS) (req : Request) (f : UploadedFile)
    (W H : Int)
    (hw : formGetInt req.form "width" 100 = Except.ok W)
    (hh : formGetInt req.form "height" 100 = Except.ok H)
    (hnourl : List.lookup "imageUrl" req.form = none)
    (hfile : List.lookup "image" req.files = some f)
    (hne : ¬ f.filename = "")
    (hsf : secure_filename f.filename = "") :
    thumbnail env fs req = (HandlerResult.raised "IsADirectoryError", fs) := by
  have hfs : fileSave fs ("uploads/" ++ secure_filename f.filename) f.content =
      Except.error "IsADirectoryError" := by
    rw [hsf]
    unfold fileSave
    rw [if_pos (by decide)]
  unfold thumbnail
  simp only [hw, hh, hnourl, hfile, if_neg hne, hfs]

/-- C1 (amended): cleanup happens on the success path only — after a
URL-sourced request that answers 200 the temp file is gone from the
uploads directory, and after an upload-sourced request that answers 200
the saved upload remains; the original claim's "any outcome" part fails
on the 500 path (see the counterexample), which returns before the
cleanup code runs. -/
theorem c1_cleanup (env : Env) (fs : FS) (req : Request) :
    (∀ url body fs2, List.lookup "imageUrl" req.form = some url →
      thumbnail env fs req = (HandlerResult.response 200 body, fs2) →
      fsLookup fs2 ("uploads/" ++ secure_filename (basename url)) = none) ∧
    (∀ f body fs2, List.lookup "imageUrl" req.form = none →
      List.lookup "image" req.files = some f →
      thumbnail env fs req = (HandlerResult.response 200 body, fs2) →
      fsLookup fs2 ("uploads/" ++ secure_filename f.filename) = some f.content) := by
  constructor
  · intro url body fs2 hurl hrun
    unfold thumbnail at hrun
    cases hw : formGetInt req.form "width" 100 with
    | error e =>
      simp only [hw] at hrun
      simp at hrun
    | ok W =>
      simp only [hw] at hrun
      cases hh : formGetInt req.form "height" 100 with
      | error e =>
        simp only [hh] at hrun
        simp at hrun
      | ok H =>
        simp only [hh, hurl] at hrun
        cases hds : downloadAndSave env url with
        | error e =>
          simp only [hds] at hrun
          simp at hrun
        | ok pw =>
          obtain ⟨p, written⟩ := pw
          simp only [hds] at hrun
          have hp : p = "uploads/" ++ secure_filename (basename url) :=
            downloadAndSave_path env url p written hds
          unfold thumbnailAfterSource at hrun
          cases hgen : generate_thumbnail env (fsWrite fs p written) p W H with
          | none =>
            simp only [hgen] at hrun
            simp at hrun
          | some buf =>
            simp only [hgen] at hrun
            have hfs2 : fsRemove (fsWrite fs p written) p = fs2 := congrArg Prod.snd hrun
            rw [← hfs2, ← hp]
            exact fsLookup_fsRemove_self _ _
  · intro f body fs2 hnourl hfile hrun
    unfold thumbnail at hrun
    cases hw : formGetInt req.form "width" 100 with
    | error e =>
      simp only [hw] at hrun
      simp at hrun
    | ok W =>
      simp only [hw] at hrun
      cases hh : formGetInt req.form "height" 100 with
      | error e =>
        simp only [hh] at hrun
        simp at hrun
      | ok H =>
        simp only [hh, hnourl, hfile] at hrun
        by_cases hne : f.filename = ""
        · rw [if_pos hne] at hrun
          simp at hrun
        · rw [if_neg hne] at hrun
          cases hfsv : fileSave fs ("uploads/" ++ secure_filename f.filename) f.content with
          | error e =>
            simp only [hfsv] at hrun
            simp at hrun
          | ok fs1 =>
            simp only [hfsv] at hrun
            have hfs1 : fs1 = fsWrite fs ("uploads/" ++ secure_filename f.filename) f.content := by
              unfold fileSave at hfsv
              split at hfsv
              · simp at hfsv
              · simp at hfsv
                exact hfsv.symm
            unfold thumbnailAfterSource at hrun
            cases hgen : generate_thumbnail env fs1
                ("uploads/" ++ secure_filename f.filename) W H with
            | none =>
              simp only [hgen] at hrun
              simp at hrun
            | some buf =>
              simp only [hgen] at hrun
              have hfs2 : fs1 = fs2 := congrArg Prod.snd hrun
              rw [← hfs2, hfs1]
              exact fsLookup_fsWrite_self _ _ _

/-- C1 counterexample: the claim as stated ("for every URL-sourced
request, any outcome, the temp file is deleted before the response is
returned") is false — when JPEG re-encoding fails after the fetched
image was saved, the handler returns 500 and the temp file
`uploads/pic.jpg` is still present in the uploads directory. -/
theorem c1_counterexample :
    (thumbnail exEnvJpegFail [] exReqUrl).1 =
      HandlerResult.response 500 { error := some "Failed to generate thumbnail" } ∧
    fsLookup (thumbnail exEnvJpegFail [] exReqUrl).2
      ("uploads/" ++ secure_filename (basename "http://host/pic.jpg")) = some [9, 9] := by
  constructor
  · decide
  · decide

/-- Witness for C1 at concrete inputs: a successful URL request ends
with the temp file absent; a successful upload request ends with the
uploaded file present. -/
theorem c1_cleanup_witness :
    fsLookup [] ("uploads/" ++ secure_filename (basename "http://host/pic.jpg")) = none ∧
    fsLookup [("uploads/photo.jpg", [7])]
      ("uploads/" ++ secure_filename (UploadedFile.mk "photo.jpg" [7]).filename) =
      some (UploadedFile.mk "photo.jpg" [7]).content := by
  constructor
  · exact (c1_cleanup exEnvOk [] exReqUrl).1 "http://host/pic.jpg"
      { thumbnailUrl := some "data:image/jpeg;base64,AQID", metadata := some [] } []
      rfl (by decide)
  · exact (c1_cleanup exEnvOk [] exReqUpload).2 (UploadedFile.mk "photo.jpg" [7])
      { thumbnailUrl := some "data:image/jpeg;base64,AQID", metadata := some [] }
      [("uploads/photo.jpg", [7])] rfl rfl (by decide)

/-- Witness for C3 at concrete inputs: a missing file yields the empty
mapping, and a successful generation yields a 200 first component. -/
theorem c3_metadata_nonfatal_witness :
    get_image_metadata exEnvOk [] "missing.jpg" = [] ∧
    (thumbnailAfterSource exEnvOk [("uploads/photo.jpg", [7])] "uploads/photo.jpg"
        100 100 none).1 =
      HandlerResult.response 200
        { thumbnailUrl := some ("data:image/jpeg;base64," ++ String.mk (base64Encode [1, 2, 3])),
          metadata := some (get_image_metadata exEnvOk [("uploads/photo.jpg", [7])]
            "uploads/photo.jpg") } := by
  constructor
  · exact (c3_metadata_nonfatal exEnvOk [] "missing.jpg").1
      "FileNotFoundError: missing.jpg" rfl
  · exact (c3_metadata_nonfatal exEnvOk [("uploads/photo.jpg", [7])] "uploads/photo.jpg").2
      100 100 none [1, 2, 3] (by decide)

/-- Witness for C4 at concrete inputs: absent fields behave like
explicit "100" fields, and non-integer width or height values raise. -/
theorem c4_dimension_parsing_witness :
    (thumbnail exEnvOk [] { form := [], files := [] } =
      thumbnail exEnvOk [] { form := [("width", "100"), ("height", "100")], files := [] }) ∧
    thumbnail exEnvOk [] { form := [("width", "abc")], files := [] } =
      (HandlerResult.raised ("invalid literal for int() with base 10: " ++ "abc"), []) ∧
    thumbnail exEnvOk [] { form := [("height", "7x")], files := [] } =
      (HandlerResult.raised ("invalid literal for int() with base 10: " ++ "7x"), []) := by
  refine ⟨?_, ?_, ?_⟩
  · exact (c4_dimension_parsing exEnvOk [] { form := [], files := [] }).1 rfl rfl
  · exact (c4_dimension_parsing exEnvOk [] { form := [("width", "abc")], files := [] }).2.1
      "abc" rfl rfl
  · exact (c4_dimension_parsing exEnvOk [] { form := [("height", "7x")], files := [] }).2.2
      "7x" 100 rfl rfl rfl

/-- Witness for C5 at a concrete input: the generated buffer `[1, 2, 3]`
appears as `AQID` after the data-URI prefix and decodes back exactly. -/
theorem c5_dataurl_roundtrip_witness :
    ∃ s : String,
      (thumbnailAfterSource exEnvOk [("uploads/photo.jpg", [7])] "uploads/photo.jpg"
          100 100 none).1 =
        HandlerResult.response 200
          { thumbnailUrl := some ("data:image/jpeg;base64," ++ s),
            metadata := some (get_image_metadata exEnvOk [("uploads/photo.jpg", [7])]
              "uploads/photo.jpg") } ∧
      base64Decode s.data = some [1, 2, 3] :=
  c5_dataurl_roundtrip exEnvOk [("uploads/photo.jpg", [7])] "uploads/photo.jpg" 100 100 none
    [1, 2, 3] (by decide) (by decide)

/-- Witness for C6 at a concrete input: an unreachable URL yields 400
with the cause in the message, whatever the JPEG encoder would do. -/
theorem c6_url_fetch_failure_witness :
    thumbnail exEnvNetFail [] exReqUrl =
      (HandlerResult.response 400
        { error := some ("Error downloading image from URL: " ++ "URLError: unreachable host") },
        []) ∧
    ∀ g, thumbnail { exEnvNetFail with encodeJPEG := g } [] exReqUrl =
      (HandlerResult.response 400
        { error := some ("Error downloading image from URL: " ++ "URLError: unreachable host") },
        []) :=
  c6_url_fetch_failure exEnvNetFail [] exReqUrl "http://host/pic.jpg"
    "URLError: unreachable host" 100 100 rfl rfl rfl rfl

/-- Witness for C7 at a concrete input: a corrupt upload yields 500 with
the fixed message, the file staying saved. -/
theorem c7_corrupt_upload_500_witness :
    thumbnail exEnvOpenFail [] exReqUpload =
      (HandlerResult.response 500 { error := some "Failed to generate thumbnail" },
        fsWrite [] ("uploads/" ++ secure_filename (UploadedFile.mk "photo.jpg" [7]).filename)
          (UploadedFile.mk "photo.jpg" [7]).content) :=
  c7_corrupt_upload_500 exEnvOpenFail [] exReqUpload (UploadedFile.mk "photo.jpg" [7]) 100 100
    rfl rfl rfl rfl (by decide) (by decide) (by decide)

/-- Witness for C8 at a concrete input: with `imageUrl` present, adding
an uploaded file does not change the outcome. -/
theorem c8_url_precedence_witness :
    thumbnail exEnvOk []
      { form := [("imageUrl", "http://host/pic.jpg")],
        files := [("image", { filename := "photo.jpg", content := [7] })] } =
      thumbnail exEnvOk [] { form := [("imageUrl", "http://host/pic.jpg")], files := [] } :=
  c8_url_precedence exEnvOk []
    { form := [("imageUrl", "http://host/pic.jpg")],
      files := [("image", { filename := "photo.jpg", content := [7] })] }
    "http://host/pic.jpg" rfl

/-- Witness for C9 at a concrete input: uploading under the filename
".." raises `IsADirectoryError`. -/
theorem c9_dotdot_upload_raises_witness :
    thumbnail exEnvOk [] exReqDotDot = (HandlerResult.raised "IsADirectoryError", []) :=
  c9_dotdot_upload_raises exEnvOk [] exReqDotDot (UploadedFile.mk ".." [7]) 100 100
    rfl rfl rfl rfl (by decide) (by decide)
